import Mathlib

/-!
Verification of the `Store` class of `src/orm/orm-base.js` (node-active-record).

The development shallowly embeds the two cores of the file: the
through-relationship resolver `getThroughRelationshipData` (lines 60-101) and
the batch transaction coordinator `saveAll` / `deleteAll` (lines 112-136,
151-165), together with `registerModel` (lines 44-58) and the classification
helpers `isModelInstance` / `isModel` (lines 138-144).

JavaScript values are modelled as follows: an object field that may be absent
or not an object becomes an `Option`; JS string truthiness becomes `s ≠ ""`;
JS objects used as string-keyed maps become association lists with first-match
lookup (JS object keys are unique); exceptions become `Except`.
-/

namespace OrmBase

/-- Modelled from the spec: `src/orm/constants.js` is imported by
`orm-base.js` but is not under `src/`. The spec's glossary and the
`relationshipCombination` scenario (`"hasMany-belongsTo"`) fix the four
relationship-kind tags. -/
def BELONGS_TO : String := "belongsTo"

/-- Modelled from the spec: see `BELONGS_TO`. -/
def HAS_MANY : String := "hasMany"

/-- Modelled from the spec: see `BELONGS_TO`. -/
def HAS_ONE : String := "hasOne"

/-- Modelled from the spec: see `BELONGS_TO`. -/
def HAS_MANY_THROUGH : String := "hasManyThrough"

/-- A relationship descriptor `{ model: <referenced model name>, key: <join
column> }` as stored under a relation name inside a relationship mapping.
A missing `model` / `key` property (JS `undefined`) is modelled as `""`,
which is falsy exactly like `undefined` where the code tests it. -/
structure RelDescriptor where
  model : String
  key : String
deriving DecidableEq, Repr

/-- A relationship mapping: relation name to descriptor.  JS object keys are
unique; lookup takes the first match. -/
abbrev RelMap := List (String × RelDescriptor)

/-- First-match association-list lookup (JS property access on a
string-keyed object). -/
def assocLookup : RelMap → String → Option RelDescriptor
  | [], _ => none
  | (k, d) :: rest, name => if k = name then some d else assocLookup rest name

/-- The `model_definition` static of a model class.  `table` is `""` when
absent (both falsy at line 51); `attributes` is `none` when absent or not an
object, `some keys` otherwise (only the key list matters at line 54); each of
the four relationship mappings is `none` when absent or not an object
(`isObject` test, lines 73 and 87). -/
structure ModelDefinition where
  table : String
  attributes : Option (List String)
  belongsTo : Option RelMap
  hasMany : Option RelMap
  hasOne : Option RelMap
  hasManyThrough : Option RelMap
deriving DecidableEq, Repr

/-- Dynamic field access `model_definition[relType]` for the relationship
kinds dispatched on at lines 71-72 and 86. -/
def ModelDefinition.relOf (md : ModelDefinition) (relType : String) : Option RelMap :=
  if relType = BELONGS_TO then md.belongsTo
  else if relType = HAS_MANY then md.hasMany
  else if relType = HAS_ONE then md.hasOne
  else if relType = HAS_MANY_THROUGH then md.hasManyThrough
  else none

/-- A model class as it sits in `modelRegistry` after `registerModel`
validated it: its `name` and its (object-valued) `model_definition`. -/
structure RegisteredModel where
  name : String
  model_definition : ModelDefinition
deriving DecidableEq, Repr

/-- The model registry `this.modelRegistry`: a JS object keyed by model name,
modelled as an association list with unique keys. -/
abbrev Registry := List (String × RegisteredModel)

/-- Registry read `this.modelRegistry[name]`. -/
def regLookup : Registry → String → Option RegisteredModel
  | [], _ => none
  | (k, v) :: rest, name => if k = name then some v else regLookup rest name

/-- Registry write `this.modelRegistry[model.name] = model` (line 57):
replaces the entry in place when the key exists, appends otherwise. -/
def regInsert : Registry → String → RegisteredModel → Registry
  | [], k, v => [(k, v)]
  | (k', v') :: rest, k, v =>
      if k' = k then (k, v) :: rest else (k', v') :: regInsert rest k v

/-- The `Store` state that the verified methods touch.  The `knex` handle and
`debugMode` flag take no part in any claim about registry contents or
resolution, so only `modelRegistry` is carried. -/
structure Store where
  modelRegistry : Registry
deriving DecidableEq, Repr

/-- A candidate passed to `registerModel` (line 44).  `isStoreModelClass`
records the outcome of the `isModel` test at line 45 (`typeof model ===
'function' && model.prototype instanceof this.Model`); `model_definition` is
`none` when the static is absent or not an object (`isObject` test, line
48). -/
structure ModelCandidate where
  isStoreModelClass : Bool
  name : String
  model_definition : Option ModelDefinition
deriving DecidableEq, Repr

/-- `registerModel` (lines 44-58): the four synchronous `InvalidModelError`
throws become `Except.error` carrying the message; success stores the model
under its name. -/
def registerModel (s : Store) (m : ModelCandidate) : Except String Store :=
  if ¬ m.isStoreModelClass then
    .error ("Registered model not instance of store model: " ++ m.name)
  else
    match m.model_definition with
    | none => .error "model_definition must be of type object"
    | some md =>
      if md.table = "" then .error "model_definition.table required"
      else
        match md.attributes with
        | none => .error "model_definition.attributes must be non empty object"
        | some [] => .error "model_definition.attributes must be non empty object"
        | some (_ :: _) =>
          .ok ⟨regInsert s.modelRegistry m.name ⟨m.name, md⟩⟩

/-- The state of the `result` record during one scan loop (lines 72-81 or
86-95).  All three fields are written together inside the `if`, so the scan
state is `none` (all still `null`) or one `ScanHit`. -/
structure ScanHit where
  relType : String
  model : String
  key : String
deriving DecidableEq, Repr

/-- Lookup of `name` inside `model_definition[relType]`: `none` when the
mapping is absent / not an object or when the key is missing
(`isObject(...)` and `relKeys.indexOf(...) !== -1`, lines 73-75). -/
def kindLookup (md : ModelDefinition) (relType name : String) : Option RelDescriptor :=
  match md.relOf relType with
  | none => none
  | some m => assocLookup m name

/-- One iteration of `relTypes.map(relType => ...)` (lines 72-81): on a hit
the three result fields are overwritten, otherwise the accumulator stands. -/
def scanStep (md : ModelDefinition) (name : String) (acc : Option ScanHit)
    (relType : String) : Option ScanHit :=
  match kindLookup md relType name with
  | none => acc
  | some d => some ⟨relType, d.model, d.key⟩

/-- The fixed scan order `const relTypes = [BELONGS_TO, HAS_MANY, HAS_ONE]`
(line 71); `hasManyThrough` is deliberately absent. -/
def directRelTypes : List String := [BELONGS_TO, HAS_MANY, HAS_ONE]

/-- The whole scan loop: visits all three kinds in order (no
short-circuit), so the last matching kind wins. -/
def scanRelTypes (md : ModelDefinition) (name : String) : Option ScanHit :=
  directRelTypes.foldl (scanStep md name) none

/-- The successful resolution record (lines 61-68 and 99-100). -/
structure ThroughRelationshipData where
  throughRelationshipType : String
  throughModel : RegisteredModel
  throughKey : String
  targetRelationshipType : String
  targetModel : RegisteredModel
  targetKey : String
  relationshipCombination : String
deriving DecidableEq, Repr

/-- Return type of `getThroughRelationshipData`: a plain failure string or
the structured record. -/
inductive ThroughResult where
  | failure (msg : String)
  | success (d : ThroughRelationshipData)
deriving DecidableEq, Repr

/-- An observable step of a resolution call: a read of `this.modelRegistry`
(lines 69, 70, 83, 84, 97, 98) or the inspection of one relationship kind of
a model definition (one iteration of lines 72-81 / 86-95). -/
inductive ResolveStep where
  | registryAccess (key : String)
  | kindScan (relType : String)
deriving DecidableEq, Repr

/-- The three `kindScan` steps of one scan loop. -/
def scanSteps : List ResolveStep :=
  [.kindScan BELONGS_TO, .kindScan HAS_MANY, .kindScan HAS_ONE]

/-- `getThroughRelationshipData` (lines 60-101), instrumented: alongside the
result it threads the store state through (the method only ever reads it)
and logs every registry access and kind scan in program order.  The
`hit.model = ""` branches mirror the JS falsy tests `!result.throughModel` /
`!result.targetModel` when the matched descriptor carried a falsy `model`. -/
def getThroughRelationshipDataSteps (s : Store)
    (parentModel throughRelation targetRelation : String) :
    ThroughResult × Store × List ResolveStep :=
  match regLookup s.modelRegistry parentModel with
  | none => (.failure "Invalid parent model", s, [.registryAccess parentModel])
  | some parent =>
    let steps1 := [ResolveStep.registryAccess parentModel,
                   ResolveStep.registryAccess parentModel] ++ scanSteps
    match scanRelTypes parent.model_definition throughRelation with
    | none =>
        (.failure ("Invalid through relation [" ++ throughRelation ++ "]"), s, steps1)
    | some hitT =>
      if hitT.model = "" then
        (.failure ("Invalid through relation [" ++ throughRelation ++ "]"), s, steps1)
      else
        match regLookup s.modelRegistry hitT.model with
        | none =>
            (.failure ("Invalid through model [" ++ hitT.model ++ "]"), s,
             steps1 ++ [.registryAccess hitT.model])
        | some tm =>
          let steps2 := steps1 ++ [ResolveStep.registryAccess hitT.model,
                                   ResolveStep.registryAccess hitT.model] ++ scanSteps
          match scanRelTypes tm.model_definition targetRelation with
          | none =>
              (.failure ("Invalid target relation [" ++ targetRelation ++ "]"), s, steps2)
          | some hitG =>
            if hitG.model = "" then
              (.failure ("Invalid target relation [" ++ targetRelation ++ "]"), s, steps2)
            else
              match regLookup s.modelRegistry hitG.model with
              | none =>
                  (.failure ("Invalid target model [" ++ hitG.model ++ "]"), s,
                   steps2 ++ [.registryAccess hitG.model])
              | some gm =>
                  (.success
                    { throughRelationshipType := hitT.relType
                      throughModel := tm
                      throughKey := hitT.key
                      targetRelationshipType := hitG.relType
                      targetModel := gm
                      targetKey := hitG.key
                      relationshipCombination := hitT.relType ++ "-" ++ hitG.relType }, s,
                   steps2 ++ [.registryAccess hitG.model, .registryAccess hitG.model])

/-- The value `getThroughRelationshipData` returns to its caller. -/
def getThroughRelationshipData (s : Store)
    (parentModel throughRelation targetRelation : String) : ThroughResult :=
  (getThroughRelationshipDataSteps s parentModel throughRelation targetRelation).1

/-! ### Batch transaction coordinator (`saveAll` / `deleteAll`) -/

/-- A JS value in an argument position where the code only tests truthiness
or passes the value on (the `transaction` parameter, default `null`). -/
inductive JSVal where
  | null
  | undefined
  | boolean (b : Bool)
  | number (n : Int)
  | strVal (s : String)
  | objRef (id : Nat)
deriving DecidableEq, Repr

/-- JS truthiness of the modelled values (`if (transaction)`, lines 114 and
127).  `NaN` is not modelled; every `objRef` (object, including an engine
transaction handle) is truthy. -/
def jsTruthy : JSVal → Bool
  | .null => false
  | .undefined => false
  | .boolean b => b
  | .number n => n ≠ 0
  | .strVal s => s ≠ ""
  | .objRef _ => true

/-- An element of the `modelInstances` array.  `jsObject id b` is a non-null
object (`isObject` true) whose constructor satisfies the store's model-class
test exactly when `b` is true; `notObject v` is any value with `isObject`
false (null, undefined, primitive). -/
inductive BatchEntry where
  | jsObject (id : Nat) (constructorIsModel : Bool)
  | notObject (v : JSVal)
deriving DecidableEq, Repr

/-- Identifier of an object entry (used to label `save` / `delete` events). -/
def entryId : BatchEntry → Nat
  | .jsObject id _ => id
  | .notObject _ => 0

/-- A JS runtime fault raised by evaluation. -/
inductive RuntimeError where
  | referenceError (msg : String)
deriving DecidableEq, Repr

/-- The transaction a batch operation runs against: the caller-supplied value
or the single fresh transaction the coordinator opened itself. -/
inductive Trx where
  | supplied (v : JSVal)
  | fresh
deriving DecidableEq, Repr

/-- An observable effect of a batch call on the engine and the instances. -/
inductive BatchEvent where
  | beginTrx
  | save (id : Nat) (t : Trx)
  | del (id : Nat) (t : Trx)
  | commit (t : Trx)
deriving DecidableEq, Repr

/-- `isModelInstance` (lines 138-140): `isObject(modelInstance) &&
isModel(modelInstance.constructor)`.  The identifier `isModel` is free in
module scope — the file only defines the method `this.isModel` and imports
`isObject` — so once the left conjunct is true, evaluating the right one
raises `ReferenceError: isModel is not defined`.  A non-object operand
short-circuits to `false` without touching `isModel`. -/
def isModelInstance : BatchEntry → Except RuntimeError Bool
  | .notObject _ => .ok false
  | .jsObject _ _ => .error (.referenceError "isModel is not defined")

/-- `_saveAll` (lines 151-157): the sequential loop, classifying each entry
and awaiting its `save(transaction)` before moving on.  Events are collected
in order; an exception aborts the remainder. -/
def saveLoop : List BatchEntry → Trx → Except RuntimeError Unit × List BatchEvent
  | [], _ => (.ok (), [])
  | e :: rest, t =>
    match isModelInstance e with
    | .error err => (.error err, [])
    | .ok b =>
      let tail := saveLoop rest t
      if b then (tail.1, .save (entryId e) t :: tail.2) else tail

/-- `_deleteAll` (lines 159-165): as `saveLoop`, invoking `delete`. -/
def deleteLoop : List BatchEntry → Trx → Except RuntimeError Unit × List BatchEvent
  | [], _ => (.ok (), [])
  | e :: rest, t =>
    match isModelInstance e with
    | .error err => (.error err, [])
    | .ok b =>
      let tail := deleteLoop rest t
      if b then (tail.1, .del (entryId e) t :: tail.2) else tail

/-- The `modelInstances` argument: an array of entries, or any non-array
value (`Array.isArray` test, lines 113 and 126). -/
inductive JSArg where
  | array (entries : List BatchEntry)
  | notArray (v : JSVal)
deriving DecidableEq, Repr

/-- `saveAll` (lines 112-123).  A non-array argument does nothing.  A truthy
`transaction` is used directly and never committed here.  Otherwise
`this.knex.transaction` opens a fresh transaction, the loop runs against it,
and `trx.commit()` fires only after the loop resolves; if the loop rejects,
the callback rejects before the commit statement and no commit is issued. -/
def saveAll (modelInstances : JSArg) (transaction : JSVal) :
    Except RuntimeError Unit × List BatchEvent :=
  match modelInstances with
  | .notArray _ => (.ok (), [])
  | .array entries =>
    if jsTruthy transaction then
      saveLoop entries (.supplied transaction)
    else
      let inner := saveLoop entries .fresh
      match inner.1 with
      | .ok _ => (.ok (), .beginTrx :: inner.2 ++ [.commit .fresh])
      | .error e => (.error e, .beginTrx :: inner.2)

/-- `deleteAll` (lines 125-136): as `saveAll`, running the delete loop. -/
def deleteAll (modelInstances : JSArg) (transaction : JSVal) :
    Except RuntimeError Unit × List BatchEvent :=
  match modelInstances with
  | .notArray _ => (.ok (), [])
  | .array entries =>
    if jsTruthy transaction then
      deleteLoop entries (.supplied transaction)
    else
      let inner := deleteLoop entries .fresh
      match inner.1 with
      | .ok _ => (.ok (), .beginTrx :: inner.2 ++ [.commit .fresh])
      | .error e => (.error e, .beginTrx :: inner.2)

/-- Modelled from the spec: the classification `isModelInstance` is described
to perform (spec section 4.2: "an object qualifies for processing only if it
is a non-null structured object whose constructor is a registered model
class"), i.e. the evident intent `this.isModel(modelInstance.constructor)`
of the faulty bare call. -/
def isModelInstanceIntended : BatchEntry → Bool
  | .notObject _ => false
  | .jsObject _ c => c

/-- The save loop under the intended classification, for comparison with
the source's `saveLoop`. -/
def saveLoopIntended : List BatchEntry → Trx → List BatchEvent
  | [], _ => []
  | e :: rest, t =>
    if isModelInstanceIntended e then
      .save (entryId e) t :: saveLoopIntended rest t
    else
      saveLoopIntended rest t

/-- Recognizes a `save` invocation in an event trace. -/
def isSaveEvent : BatchEvent → Bool
  | .save _ _ => true
  | _ => false

/-- Recognizes an engine transaction side effect (open or commit) in an
event trace. -/
def isTrxEvent : BatchEvent → Bool
  | .beginTrx => true
  | .commit _ => true
  | _ => false

/-- Modelled from the spec: the validity condition section 6 states for a
registration candidate — a recognized model class with an object-valued
`model_definition` carrying a `table` name and a non-empty attribute
mapping. -/
def specValidCandidate (m : ModelCandidate) : Bool :=
  m.isStoreModelClass &&
    match m.model_definition with
    | none => false
    | some md =>
      md.table ≠ "" &&
        match md.attributes with
        | none => false
        | some attrs => !attrs.isEmpty

/-! ### Concrete registries used by the witnesses -/

/-- `Order` metadata of the spec's scenario: `hasMany.items = {model:"Item",
key:"order_id"}`. -/
def orderDef : ModelDefinition :=
  ⟨"orders", some ["id"], none, some [("items", ⟨"Item", "order_id"⟩)], none, none⟩

/-- `Item` metadata of the spec's scenario: `belongsTo.supplier =
{model:"Supplier", key:"supplier_id"}`. -/
def itemDef : ModelDefinition :=
  ⟨"items", some ["id"], some [("supplier", ⟨"Supplier", "supplier_id"⟩)], none, none, none⟩

/-- `Supplier` metadata of the spec's scenario: no relationships. -/
def supplierDef : ModelDefinition :=
  ⟨"suppliers", some ["id"], none, none, none, none⟩

/-- The registered `Order` model. -/
def orderModel : RegisteredModel := ⟨"Order", orderDef⟩

/-- The registered `Item` model. -/
def itemModel : RegisteredModel := ⟨"Item", itemDef⟩

/-- The registered `Supplier` model. -/
def supplierModel : RegisteredModel := ⟨"Supplier", supplierDef⟩

/-- The store of the spec's Order/items/supplier scenario. -/
def demoStore : Store :=
  ⟨[("Order", orderModel), ("Item", itemModel), ("Supplier", supplierModel)]⟩

/-- A model declaring the same relation name `rel` under both `belongsTo`
and `hasOne` (kind-collision scenario). -/
def dupDefA : ModelDefinition :=
  ⟨"a_table", some ["id"], some [("rel", ⟨"B", "kb"⟩)], none,
   some [("rel", ⟨"B", "ko"⟩)], none⟩

/-- A model declaring `owner` under both `belongsTo` and `hasOne`, each
referring back to `B` itself. -/
def dupDefB : ModelDefinition :=
  ⟨"b_table", some ["id"], some [("owner", ⟨"B", "kb2"⟩)], none,
   some [("owner", ⟨"B", "ko2"⟩)], none⟩

/-- Registered model `A` with a kind collision. -/
def dupModelA : RegisteredModel := ⟨"A", dupDefA⟩

/-- Registered model `B` with a kind collision. -/
def dupModelB : RegisteredModel := ⟨"B", dupDefB⟩

/-- Store for the kind-collision scenario. -/
def dupStore : Store := ⟨[("A", dupModelA), ("B", dupModelB)]⟩

/-- A model whose only relation `stuff` lives under `hasManyThrough`, which
the through-hop scan excludes. -/
def throughOnlyDef : ModelDefinition :=
  ⟨"p_table", some ["id"], none, none, none, some [("stuff", ⟨"X", "k"⟩)]⟩

/-- Registered model `P` carrying only a `hasManyThrough` relation. -/
def throughOnlyModel : RegisteredModel := ⟨"P", throughOnlyDef⟩

/-- Store containing only `P`. -/
def throughOnlyStore : Store := ⟨[("P", throughOnlyModel)]⟩

/-- A store with an empty registry. -/
def emptyStore : Store := ⟨[]⟩

/-- A valid registration candidate for `Order`. -/
def orderCandidate : ModelCandidate := ⟨true, "Order", some orderDef⟩

/-- A second, different `Order` metadata. -/
def orderDefV2 : ModelDefinition :=
  ⟨"orders_v2", some ["id", "total"], none, none, none, none⟩

/-- A second valid candidate with the same name `Order`. -/
def orderCandidateV2 : ModelCandidate := ⟨true, "Order", some orderDefV2⟩

/-! ### Helper lemmas -/

theorem scanStep_of_none {md : ModelDefinition} {name k : String}
    (acc : Option ScanHit) (h : kindLookup md k name = none) :
    scanStep md name acc k = acc := by
  simp [scanStep, h]

theorem scanStep_of_some {md : ModelDefinition} {name k : String} {d : RelDescriptor}
    (acc : Option ScanHit) (h : kindLookup md k name = some d) :
    scanStep md name acc k = some ⟨k, d.model, d.key⟩ := by
  simp [scanStep, h]

theorem scanRelTypes_unfold (md : ModelDefinition) (name : String) :
    scanRelTypes md name =
      scanStep md name (scanStep md name (scanStep md name none BELONGS_TO) HAS_MANY)
        HAS_ONE := rfl

/-- When the relation name lives under exactly one of the three direct kinds,
the scan resolves to that kind's descriptor. -/
theorem scanRelTypes_eq_of_unique (md : ModelDefinition) (name kT : String)
    (d : RelDescriptor) (hk : kT ∈ directRelTypes)
    (hd : kindLookup md kT name = some d)
    (hu : ∀ k ∈ directRelTypes, k ≠ kT → kindLookup md k name = none) :
    scanRelTypes md name = some ⟨kT, d.model, d.key⟩ := by
  have hBm : BELONGS_TO ∈ directRelTypes := by simp [directRelTypes]
  have hHm : HAS_MANY ∈ directRelTypes := by simp [directRelTypes]
  have hOm : HAS_ONE ∈ directRelTypes := by simp [directRelTypes]
  have hcases : kT = BELONGS_TO ∨ kT = HAS_MANY ∨ kT = HAS_ONE := by
    simpa [directRelTypes] using hk
  rw [scanRelTypes_unfold]
  rcases hcases with h | h | h
  · subst h
    rw [scanStep_of_some _ hd,
        scanStep_of_none _ (hu HAS_MANY hHm (by decide)),
        scanStep_of_none _ (hu HAS_ONE hOm (by decide))]
  · subst h
    rw [scanStep_of_some _ hd,
        scanStep_of_none _ (hu HAS_ONE hOm (by decide))]
  · subst h
    rw [scanStep_of_some _ hd]

/-- The fully successful resolution path, assembled from the two scan
results and the three registry lookups. -/
theorem resolve_success (s : Store) (p t g : String) (pm tm gm : RegisteredModel)
    (hitT hitG : ScanHit)
    (hp : regLookup s.modelRegistry p = some pm)
    (hsT : scanRelTypes pm.model_definition t = some hitT)
    (hTne : hitT.model ≠ "")
    (htm : regLookup s.modelRegistry hitT.model = some tm)
    (hsG : scanRelTypes tm.model_definition g = some hitG)
    (hGne : hitG.model ≠ "")
    (hgm : regLookup s.modelRegistry hitG.model = some gm) :
    getThroughRelationshipData s p t g =
      .success ⟨hitT.relType, tm, hitT.key, hitG.relType, gm, hitG.key,
                hitT.relType ++ "-" ++ hitG.relType⟩ := by
  simp [getThroughRelationshipData, getThroughRelationshipDataSteps,
        hp, hsT, hTne, htm, hsG, hGne, hgm]

/-! ### Claim theorems: relationship resolver -/

/-- Claim C1: with parent, through-model and target-model registered and each
relation name under exactly one direct kind, resolution succeeds; the
`throughModel` / `targetModel` fields are the registry's own entries, the
keys come from the descriptors, and `relationshipCombination` is the two
kind tags joined by a dash. -/
theorem C1_resolution_returns_registered_metadata
    (s : Store) (p t g : String) (pm tm gm : RegisteredModel)
    (kT kG : String) (dT dG : RelDescriptor)
    (hp : regLookup s.modelRegistry p = some pm)
    (hkT : kT ∈ directRelTypes)
    (hdT : kindLookup pm.model_definition kT t = some dT)
    (huT : ∀ k ∈ directRelTypes, k ≠ kT → kindLookup pm.model_definition k t = none)
    (hTne : dT.model ≠ "")
    (htm : regLookup s.modelRegistry dT.model = some tm)
    (hkG : kG ∈ directRelTypes)
    (hdG : kindLookup tm.model_definition kG g = some dG)
    (huG : ∀ k ∈ directRelTypes, k ≠ kG → kindLookup tm.model_definition k g = none)
    (hGne : dG.model ≠ "")
    (hgm : regLookup s.modelRegistry dG.model = some gm) :
    getThroughRelationshipData s p t g =
      .success ⟨kT, tm, dT.key, kG, gm, dG.key, kT ++ "-" ++ kG⟩ := by
  have hsT := scanRelTypes_eq_of_unique pm.model_definition t kT dT hkT hdT huT
  have hsG := scanRelTypes_eq_of_unique tm.model_definition g kG dG hkG hdG huG
  exact resolve_success s p t g pm tm gm ⟨kT, dT.model, dT.key⟩ ⟨kG, dG.model, dG.key⟩
    hp hsT hTne htm hsG hGne hgm

/-- Witness for C1: the spec's Order/items/supplier scenario resolves to the
registered `Item` and `Supplier` entries with combination
`"hasMany-belongsTo"`. -/
theorem C1_witness :
    getThroughRelationshipData demoStore "Order" "items" "supplier" =
      .success ⟨"hasMany", itemModel, "order_id", "belongsTo", supplierModel,
                "supplier_id", "hasMany-belongsTo"⟩ := by
  have h := C1_resolution_returns_registered_metadata demoStore "Order" "items" "supplier"
    orderModel itemModel supplierModel HAS_MANY BELONGS_TO
    ⟨"Item", "order_id"⟩ ⟨"Supplier", "supplier_id"⟩
    rfl (by decide) (by decide) (by decide) (by decide) rfl
    (by decide) (by decide) (by decide) (by decide) rfl
  simpa [HAS_MANY, BELONGS_TO] using h

/-- The scan resolves to the last kind in scan order whose mapping contains
the name: the kinds scanned after it find nothing, while the kinds scanned
before it are unconstrained — whatever they hold is overwritten, which is
exactly the no-short-circuit, last-match-wins behavior. -/
theorem scanRelTypes_eq_last (md : ModelDefinition) (name kL : String)
    (d : RelDescriptor)
    (hd : kindLookup md kL name = some d)
    (hlast : kL = HAS_ONE
      ∨ (kL = HAS_MANY ∧ kindLookup md HAS_ONE name = none)
      ∨ (kL = BELONGS_TO ∧ kindLookup md HAS_MANY name = none
           ∧ kindLookup md HAS_ONE name = none)) :
    scanRelTypes md name = some ⟨kL, d.model, d.key⟩ := by
  rw [scanRelTypes_unfold]
  rcases hlast with h | ⟨h, hO⟩ | ⟨h, hM, hO⟩
  · subst h
    rw [scanStep_of_some _ hd]
  · subst h
    rw [scanStep_of_some _ hd, scanStep_of_none _ hO]
  · subst h
    rw [scanStep_of_some _ hd, scanStep_of_none _ hM, scanStep_of_none _ hO]

/-- Claim C2: the scan visits `belongsTo`, `hasMany`, `hasOne` in that fixed
order without short-circuiting, so whichever kinds a relation name is
declared under, resolution records the *last* matching kind in scan order —
on the through hop and the target hop alike.  `kT` (resp. `kG`) is
characterized as the last matching kind: it matches, every kind after it in
scan order does not, and the kinds before it are arbitrary (they may match
or not — any hit there is overwritten).  Instantiating `kT` at `hasOne`
with `belongsTo` also matching gives the claim's belongsTo+hasOne example;
`kT = hasMany` with `belongsTo` matching and `kT = hasOne` with `hasMany`
matching cover the other collision shapes. -/
theorem C2_last_matching_kind_wins
    (s : Store) (p t g : String) (pm tm gm : RegisteredModel)
    (kT kG : String) (dT dG : RelDescriptor)
    (hp : regLookup s.modelRegistry p = some pm)
    (hdT : kindLookup pm.model_definition kT t = some dT)
    (hlastT : kT = HAS_ONE
      ∨ (kT = HAS_MANY ∧ kindLookup pm.model_definition HAS_ONE t = none)
      ∨ (kT = BELONGS_TO ∧ kindLookup pm.model_definition HAS_MANY t = none
           ∧ kindLookup pm.model_definition HAS_ONE t = none))
    (hTne : dT.model ≠ "")
    (htm : regLookup s.modelRegistry dT.model = some tm)
    (hdG : kindLookup tm.model_definition kG g = some dG)
    (hlastG : kG = HAS_ONE
      ∨ (kG = HAS_MANY ∧ kindLookup tm.model_definition HAS_ONE g = none)
      ∨ (kG = BELONGS_TO ∧ kindLookup tm.model_definition HAS_MANY g = none
           ∧ kindLookup tm.model_definition HAS_ONE g = none))
    (hGne : dG.model ≠ "")
    (hgm : regLookup s.modelRegistry dG.model = some gm) :
    getThroughRelationshipData s p t g =
      .success ⟨kT, tm, dT.key, kG, gm, dG.key, kT ++ "-" ++ kG⟩ := by
  have hsT := scanRelTypes_eq_last pm.model_definition t kT dT hdT hlastT
  have hsG := scanRelTypes_eq_last tm.model_definition g kG dG hdG hlastG
  exact resolve_success s p t g pm tm gm ⟨kT, dT.model, dT.key⟩
    ⟨kG, dG.model, dG.key⟩ hp hsT hTne htm hsG hGne hgm

/-- Witness for C2: in `dupStore`, `rel` is declared under both `belongsTo`
and `hasOne` on `A` (first conjunct exhibits the collision) and `owner`
under both on `B`; both hops resolve with the last matching kind,
`hasOne`. -/
theorem C2_witness :
    kindLookup dupDefA BELONGS_TO "rel" = some ⟨"B", "kb"⟩
    ∧ kindLookup dupDefB BELONGS_TO "owner" = some ⟨"B", "kb2"⟩
    ∧ getThroughRelationshipData dupStore "A" "rel" "owner" =
        .success ⟨"hasOne", dupModelB, "ko", "hasOne", dupModelB, "ko2",
                  "hasOne-hasOne"⟩ := by
  refine ⟨by decide, by decide, ?_⟩
  have h := C2_last_matching_kind_wins dupStore "A" "rel" "owner"
    dupModelA dupModelB dupModelB HAS_ONE HAS_ONE ⟨"B", "ko"⟩ ⟨"B", "ko2"⟩
    rfl (by decide) (Or.inl rfl) (by decide) rfl
    (by decide) (Or.inl rfl) (by decide) rfl
  simpa [HAS_ONE] using h

/-- Claim C6: an unregistered parent name fails with "Invalid parent model"
after a single registry access and before any relationship scan, whatever
the through and target arguments are. -/
theorem C6_invalid_parent_short_circuits (s : Store) (p t g : String)
    (hp : regLookup s.modelRegistry p = none) :
    getThroughRelationshipDataSteps s p t g =
      (.failure "Invalid parent model", s, [.registryAccess p]) := by
  simp [getThroughRelationshipDataSteps, hp]

/-- Witness for C6: the empty store rejects parent `Missing` with the exact
failure and a one-access step list. -/
theorem C6_witness :
    getThroughRelationshipDataSteps emptyStore "Missing" "a" "b" =
      (.failure "Invalid parent model", emptyStore, [.registryAccess "Missing"]) :=
  C6_invalid_parent_short_circuits emptyStore "Missing" "a" "b" rfl

/-- Claim C7: when the through relation name is absent from all three direct
kinds of a registered parent (names under `hasManyThrough` are excluded from
the scan), resolution fails with the literal message
`Invalid through relation [<name>]`. -/
theorem C7_invalid_through_relation (s : Store) (p t g : String)
    (pm : RegisteredModel)
    (hp : regLookup s.modelRegistry p = some pm)
    (habs : ∀ k ∈ directRelTypes, kindLookup pm.model_definition k t = none) :
    getThroughRelationshipData s p t g =
      .failure ("Invalid through relation [" ++ t ++ "]") := by
  have hBm : BELONGS_TO ∈ directRelTypes := by simp [directRelTypes]
  have hHm : HAS_MANY ∈ directRelTypes := by simp [directRelTypes]
  have hOm : HAS_ONE ∈ directRelTypes := by simp [directRelTypes]
  have hscan : scanRelTypes pm.model_definition t = none := by
    rw [scanRelTypes_unfold]
    rw [scanStep_of_none _ (habs BELONGS_TO hBm),
        scanStep_of_none _ (habs HAS_MANY hHm),
        scanStep_of_none _ (habs HAS_ONE hOm)]
  simp [getThroughRelationshipData, getThroughRelationshipDataSteps, hp, hscan]

/-- Witness for C7: `P` declares `stuff` only under `hasManyThrough`, so the
through hop rejects it with the literal name in the message. -/
theorem C7_witness :
    getThroughRelationshipData throughOnlyStore "P" "stuff" "other" =
      .failure "Invalid through relation [stuff]" := by
  have h := C7_invalid_through_relation throughOnlyStore "P" "stuff" "other"
    throughOnlyModel rfl (by decide)
  simpa using h

/-- Claim C10: resolution is read-only on the store — the threaded store
state after any `getThroughRelationshipData` call, succeeding or failing, is
the input store. -/
theorem C10_resolution_preserves_registry (s : Store) (p t g : String) :
    (getThroughRelationshipDataSteps s p t g).2.1 = s := by
  simp only [getThroughRelationshipDataSteps]
  repeat' split
  all_goals rfl

/-! ### Claim theorems: batch transaction coordinator -/

/-- The source's save loop can emit no event at all: classifying a non-object
yields `false` (skip), classifying an object raises the `ReferenceError`
from the unbound `isModel`, so the `save` branch is unreachable. -/
theorem saveLoop_events_nil (es : List BatchEntry) (t : Trx) :
    (saveLoop es t).2 = [] := by
  induction es with
  | nil => rfl
  | cons e rest ih =>
    cases e with
    | jsObject id c => rfl
    | notObject v => simpa [saveLoop, isModelInstance] using ih

/-- As `saveLoop_events_nil`, for the delete loop. -/
theorem deleteLoop_events_nil (es : List BatchEntry) (t : Trx) :
    (deleteLoop es t).2 = [] := by
  induction es with
  | nil => rfl
  | cons e rest ih =>
    cases e with
    | jsObject id c => rfl
    | notObject v => simpa [deleteLoop, isModelInstance] using ih

/-- No `saveAll` call, on any argument and any transaction value, ever
produces a `save` event. -/
theorem saveAll_never_saves (a : JSArg) (t : JSVal) :
    ((saveAll a t).2).filter isSaveEvent = [] := by
  cases a with
  | notArray v => rfl
  | array es =>
    by_cases h : jsTruthy t = true
    · simp [saveAll, h, saveLoop_events_nil]
    · cases hr : (saveLoop es .fresh).1 with
      | ok u =>
          simp [saveAll, h, hr, saveLoop_events_nil, isSaveEvent]
      | error e =>
          simp [saveAll, h, hr, saveLoop_events_nil, isSaveEvent]

/-- Claim C5 (code bug): the loop's classification calls the unbound
identifier `isModel`, so `save` is invoked on nothing at all — no trace of
any `saveAll` call contains a `save` event, and a mixed list with one model
instance aborts with `ReferenceError: isModel is not defined` (after
silently passing over the leading non-object) instead of saving the
instance. -/
theorem C5_save_is_never_invoked :
    (∀ a t, ((saveAll a t).2).filter isSaveEvent = [])
    ∧ saveAll (.array [.notObject (.number 5), .jsObject 0 true]) (.objRef 42) =
        (.error (.referenceError "isModel is not defined"), []) :=
  ⟨saveAll_never_saves, rfl⟩

/-- Claim C3 (code bug): with a caller-supplied (object) transaction handle,
`saveAll` indeed opens no transaction and never commits; but on the
no-handle path a single model instance makes the call raise the
`ReferenceError` from the unbound `isModel` after opening its transaction,
so no save runs and no commit is issued. -/
theorem C3_supplied_handle_never_committed :
    (∀ entries id, ((saveAll (.array entries) (.objRef id)).2).filter isTrxEvent = [])
    ∧ saveAll (.array [.jsObject 1 true]) .null =
        (.error (.referenceError "isModel is not defined"), [.beginTrx]) := by
  refine ⟨?_, rfl⟩
  intro entries id
  simp [saveAll, jsTruthy, saveLoop_events_nil]

/-- Claim C4 (counterexample): `saveAll([])` and `deleteAll([])` with no
transaction argument do have observable transaction side effects — the
trace opens a transaction and commits it. -/
theorem C4_counterexample :
    BatchEvent.beginTrx ∈ (saveAll (.array []) .null).2
    ∧ BatchEvent.commit .fresh ∈ (saveAll (.array []) .null).2
    ∧ BatchEvent.beginTrx ∈ (deleteAll (.array []) .null).2 := by
  refine ⟨?_, ?_, ?_⟩ <;> decide

/-- Claim C4 (amended): `saveAll([])` and `deleteAll([])` perform no save or
delete operation and complete successfully, but each opens exactly one new
transaction and issues exactly one commit on it. -/
theorem C4_empty_batch_commits_empty_transaction :
    saveAll (.array []) .null = (.ok (), [.beginTrx, .commit .fresh])
    ∧ deleteAll (.array []) .null = (.ok (), [.beginTrx, .commit .fresh]) :=
  ⟨rfl, rfl⟩

/-- Claim C9 (code bug): a falsy transaction argument (`0`, `false`, `""`,
`undefined`) is handled exactly like the omitted default `null` — the
coordinator takes the own-transaction path and never touches the supplied
value — but with a model instance in the list the opened transaction is
never committed, because classification raises the `ReferenceError` first;
an empty-string or `false` handle on `deleteAll` likewise falls through to
the own-transaction path. -/
theorem C9_falsy_transaction_treated_as_omitted :
    saveAll (.array [.jsObject 7 true]) (.number 0) =
        saveAll (.array [.jsObject 7 true]) .null
    ∧ saveAll (.array [.jsObject 7 true]) (.number 0) =
        (.error (.referenceError "isModel is not defined"), [.beginTrx])
    ∧ deleteAll (.array [.notObject .undefined]) (.strVal "") =
        (.ok (), [.beginTrx, .commit .fresh])
    ∧ deleteAll (.array [.notObject .undefined]) (.boolean false) =
        deleteAll (.array [.notObject .undefined]) .null :=
  ⟨rfl, rfl, rfl, rfl⟩

/-- Under the intended classification (spec section 4.2), the save loop
invokes `save` exactly on the model instances, in input order, against the
given transaction — the behavior claims C3 and C5 describe. -/
theorem saveLoopIntended_saves_in_order (es : List BatchEntry) (t : Trx) :
    saveLoopIntended es t =
      (es.filter isModelInstanceIntended).map (fun e => .save (entryId e) t) := by
  induction es with
  | nil => rfl
  | cons e rest ih =>
    by_cases h : isModelInstanceIntended e = true
    · simp [saveLoopIntended, List.filter, h, ih]
    · simp [saveLoopIntended, List.filter, h, ih]

/-! ### Claim theorems: model registration -/

/-- Looking up the key just written by `regInsert` returns the new value. -/
theorem regLookup_regInsert_self (r : Registry) (k : String) (v : RegisteredModel) :
    regLookup (regInsert r k v) k = some v := by
  induction r with
  | nil => simp [regInsert, regLookup]
  | cons hd tl ih =>
    obtain ⟨k1, v1⟩ := hd
    by_cases h : k1 = k
    · simp [regInsert, h, regLookup]
    · simp [regInsert, h, regLookup, ih]

/-- `registerModel` throws exactly when the spec's validity condition
fails. -/
theorem registerModel_error_iff (s : Store) (m : ModelCandidate) :
    (∃ e, registerModel s m = .error e) ↔ specValidCandidate m = false := by
  obtain ⟨cls, nm, mdo⟩ := m
  cases cls with
  | false => simp [registerModel, specValidCandidate]
  | true =>
    cases mdo with
    | none => simp [registerModel, specValidCandidate]
    | some md =>
      obtain ⟨tb, attrs, bt, hm2, ho, hmt⟩ := md
      by_cases ht : tb = ""
      · subst ht
        simp [registerModel, specValidCandidate]
      · cases attrs with
        | none => simp [registerModel, specValidCandidate, ht]
        | some l =>
          cases l with
          | nil => simp [registerModel, specValidCandidate, ht]
          | cons a as => simp [registerModel, specValidCandidate, ht]

/-- A valid candidate registers successfully, storing its metadata under its
name. -/
theorem registerModel_ok (s : Store) (m : ModelCandidate) (md : ModelDefinition)
    (hmd : m.model_definition = some md) (hv : specValidCandidate m = true) :
    registerModel s m = .ok ⟨regInsert s.modelRegistry m.name ⟨m.name, md⟩⟩ := by
  obtain ⟨cls, nm, mdo⟩ := m
  simp only at hmd
  subst hmd
  cases cls with
  | false => simp [specValidCandidate] at hv
  | true =>
    obtain ⟨tb, attrs, bt, hm2, ho, hmt⟩ := md
    by_cases ht : tb = ""
    · subst ht
      simp [specValidCandidate] at hv
    · cases attrs with
      | none => simp [specValidCandidate, ht] at hv
      | some l =>
        cases l with
        | nil => simp [specValidCandidate, ht] at hv
        | cons a as => simp [registerModel, ht]

/-- Claim C8: `registerModel` raises a validation fault exactly when the
candidate is not a model class, lacks an object `model_definition`, lacks a
table name, or lacks a non-empty attribute mapping; otherwise it stores the
entry under the model's name, and a second registration under the same name
overwrites the first. -/
theorem C8_registerModel_validation (s : Store) (m m2 : ModelCandidate) :
    ((∃ e, registerModel s m = .error e) ↔ specValidCandidate m = false)
    ∧ (∀ md, m.model_definition = some md → specValidCandidate m = true →
        registerModel s m = .ok ⟨regInsert s.modelRegistry m.name ⟨m.name, md⟩⟩)
    ∧ (∀ s1 md2, registerModel s m = .ok s1 → m2.name = m.name →
        m2.model_definition = some md2 → specValidCandidate m2 = true →
        ∃ s2, registerModel s1 m2 = .ok s2 ∧
          regLookup s2.modelRegistry m.name = some ⟨m.name, md2⟩) := by
  refine ⟨registerModel_error_iff s m,
          fun md h1 h2 => registerModel_ok s m md h1 h2, ?_⟩
  intro s1 md2 hok hname hmd2 hv2
  refine ⟨⟨regInsert s1.modelRegistry m2.name ⟨m2.name, md2⟩⟩,
          registerModel_ok s1 m2 md2 hmd2 hv2, ?_⟩
  rw [← hname]
  exact regLookup_regInsert_self s1.modelRegistry m2.name ⟨m2.name, md2⟩

/-- Witness for C8: after registering `Order`, registering a second valid
`Order` candidate overwrites the first — the registry then yields the second
metadata. -/
theorem C8_witness :
    ∃ s2, registerModel ⟨[("Order", ⟨"Order", orderDef⟩)]⟩ orderCandidateV2 = .ok s2 ∧
      regLookup s2.modelRegistry "Order" = some ⟨"Order", orderDefV2⟩ :=
  (C8_registerModel_validation emptyStore orderCandidate orderCandidateV2).2.2
    ⟨[("Order", ⟨"Order", orderDef⟩)]⟩ orderDefV2 rfl rfl rfl rfl

end OrmBase
